import Mathlib

/-!
Verification development for the LinkedIn profile optimizer backend
(src/backend/agents.py, src/backend/graph.py, src/app.py).

The core under study is the supervisor/router and its dispatch graph:
a conversation state holds a message list, a profile summary string and a
transient `next` field; the supervisor classifies the latest user message
into one of five outcomes and the graph dispatches to at most one role
builder, which appends one assistant reply.

External collaborators (the hosted LLM and the langgraph execution
engine) are modelled abstractly, following the contracts the spec states
for them; everything else is translated directly from the source.
-/

/-- A conversation message: the tagged union of User (HumanMessage) and
Assistant (AIMessage) used by the backend. Mirrors the two message kinds
the source code constructs and inspects. -/
inductive Message where
  | user (content : String)
  | assistant (content : String)
deriving DecidableEq, Repr

/-- The text payload of a message. -/
def Message.content : Message → String
  | .user c => c
  | .assistant c => c

/-- Whether a message is a User (HumanMessage) entry; mirrors the
`isinstance(message, HumanMessage)` test in agents.py. -/
def Message.isUser : Message → Bool
  | .user _ => true
  | .assistant _ => false

/-- The closed five-value routing enumeration: the `Literal` type of the
`next` field of `AgentState` and of `SupervisorRouterFormatter.next_agent`
in agents.py. -/
inductive NextAgent where
  | profileAnalyzer
  | jobFitAnalyzer
  | contentEnhancer
  | careerCounselor
  | endConv
deriving DecidableEq, Repr

/-- The literal string carried by each enumeration value in the source. -/
def NextAgent.toStr : NextAgent → String
  | .profileAnalyzer => "Profile Analyzer"
  | .jobFitAnalyzer => "Job Fit Analyzer"
  | .contentEnhancer => "Content Enhancer"
  | .careerCounselor => "Career Counselor"
  | .endConv => "__end__"

/-- Parsing a raw backend output into the enumeration: the validation the
`SupervisorRouterFormatter` pydantic schema performs on the value the
structured-output call produced. Any string other than the five literals
is malformed. -/
def parseNextAgent : String → Option NextAgent
  | "Profile Analyzer" => some NextAgent.profileAnalyzer
  | "Job Fit Analyzer" => some NextAgent.jobFitAnalyzer
  | "Content Enhancer" => some NextAgent.contentEnhancer
  | "Career Counselor" => some NextAgent.careerCounselor
  | "__end__" => some NextAgent.endConv
  | _ => none

/-- The graph state (`AgentState` TypedDict in agents.py): the message
list, the profile summary string (`profile_data`) and the transient
routing field `next`. -/
structure AgentState where
  messages : List Message
  profile_data : String
  next : NextAgent
deriving DecidableEq, Repr

/-- Helper loop for `get_current_user_message`: the
`for message in reversed(messages)` scan, returning the first User
content found and `""` when the scan ends. -/
def lastUserLoop : List Message → String
  | [] => ""
  | Message.user c :: _ => c
  | Message.assistant _ :: rest => lastUserLoop rest

/-- `get_current_user_message` from agents.py: the content of the latest
HumanMessage in the list, or the empty string when there is none. -/
def get_current_user_message (messages : List Message) : String :=
  lastUserLoop messages.reverse

/-- The errors a turn can surface: the spec error taxonomy restricted to
the two kinds the router/builder pipeline produces. -/
inductive TurnError where
  | routingFailure
  | generationFailure
deriving DecidableEq, Repr

/-- The generation backend consumed by the core, as an explicit
deterministic structure (spec section 6). `routeRaw i` is the raw string
the structured-output call produces on its attempt number `i`;
`generate r profile request` is the text a role builder gets back for
its rendered prompt, `none` standing for a failed remote call. Each role
owns a distinct fixed instruction template in the source; the template
text is static configuration, so the role tag stands for it here. -/
structure Backend where
  routeRaw : String → Nat → String
  generate : NextAgent → String → String → Option String

/-- Modelled from the spec: the constrained structured-output call
(`llm.with_structured_output(SupervisorRouterFormatter)` in agents.py,
whose enforcement lives inside the external backend library). Per spec
section 4.1, a malformed output is rejected and retried once; if the
retry is also malformed the call surfaces a `RoutingFailure` instead of
any value outside the enumeration. -/
def generateStructured (b : Backend) (req : String) : Except TurnError NextAgent :=
  match parseNextAgent (b.routeRaw req 0) with
  | some a => Except.ok a
  | none =>
    match parseNextAgent (b.routeRaw req 1) with
    | some a => Except.ok a
    | none => Except.error TurnError.routingFailure

/-- A partial state update returned by a graph node, mirroring the Python
dicts the nodes return (`{"next": ...}` from the supervisor,
`{"messages": [response]}` from a builder): absent keys are `none`. -/
structure StateUpdate where
  messages : Option (List Message)
  profile_data : Option String
  next : Option NextAgent
deriving DecidableEq, Repr

/-- `SupervisorAgent.__call__` from agents.py: extract the current user
message, invoke the structured-output chain on it alone, and return the
update `{"next": response.next_agent}`. -/
def supervisorNode (b : Backend) (s : AgentState) : Except TurnError StateUpdate :=
  let current_request := get_current_user_message s.messages
  match generateStructured b current_request with
  | Except.error e => Except.error e
  | Except.ok d => Except.ok { messages := none, profile_data := none, next := some d }

/-- The `agent_wrapper` closure shared by the four builder factories in
agents.py (`create_profile_analyzer` etc.): extract the current user
message, invoke the prompt/llm chain on `profile_data` and
`current_request`, and return the update `{"messages": [response]}`. A
failed remote call surfaces as a `GenerationFailure`. -/
def agent_wrapper (r : NextAgent) (b : Backend) (s : AgentState) : Except TurnError StateUpdate :=
  let current_request := get_current_user_message s.messages
  match b.generate r s.profile_data current_request with
  | none => Except.error TurnError.generationFailure
  | some txt =>
      Except.ok { messages := some [Message.assistant txt], profile_data := none, next := none }

/-- A target of a conditional edge in the dispatch graph: one of the four
role builder nodes, or the END sentinel. -/
inductive EdgeTarget where
  | toRole (r : NextAgent)
  | toEnd
deriving DecidableEq, Repr

/-- The conditional-edge dictionary passed to `add_conditional_edges` in
graph.py, as the literal association list from the source: each of the
five string keys maps to its builder node, and `"__end__"` to END. -/
def supervisorEdgeMap : List (String × EdgeTarget) :=
  [("Profile Analyzer", EdgeTarget.toRole NextAgent.profileAnalyzer),
   ("Job Fit Analyzer", EdgeTarget.toRole NextAgent.jobFitAnalyzer),
   ("Content Enhancer", EdgeTarget.toRole NextAgent.contentEnhancer),
   ("Career Counselor", EdgeTarget.toRole NextAgent.careerCounselor),
   ("__end__", EdgeTarget.toEnd)]

/-- The nodes of the dispatch graph that can appear in an execution
trace: the supervisor and the four role builders. -/
inductive GraphNode where
  | supervisor
  | roleNode (r : NextAgent)
deriving DecidableEq, Repr

/-- Modelled from the spec: the langgraph engine merge of a node update
into the channel state (the engine itself is an external dependency, not
under src). Per the spec data model, the message sequence is append-only
within a turn, `profile_data` is replaced only when a node writes it, and
`next` is control metadata overwritten by the supervisor. -/
def applyUpdate (s : AgentState) (u : StateUpdate) : AgentState :=
  { messages := match u.messages with
      | some ms => s.messages ++ ms
      | none => s.messages,
    profile_data := u.profile_data.getD s.profile_data,
    next := u.next.getD s.next }

/-- One execution of the compiled graph of graph.py, from the entry point
`supervisor` through the conditional edges to END: run the supervisor
node, look the resulting `next` value up in the conditional-edge
dictionary (`lambda state: state["next"]`), then either stop (END) or run
the selected builder node, whose outgoing edge goes straight to END.
Returns the final state, the trace of nodes executed, and the assistant
message the builder produced (if one ran). The `none` lookup branch
mirrors the exception a missing dictionary key would raise; the edge map
is exhaustive, so it is unreachable. -/
def runTurn (b : Backend) (s : AgentState) :
    Except TurnError (AgentState × List GraphNode × Option Message) :=
  match supervisorNode b s with
  | Except.error e => Except.error e
  | Except.ok u =>
    let s1 := applyUpdate s u
    match supervisorEdgeMap.lookup s1.next.toStr with
    | none => Except.error TurnError.routingFailure
    | some EdgeTarget.toEnd => Except.ok (s1, [GraphNode.supervisor], none)
    | some (EdgeTarget.toRole r) =>
      match agent_wrapper r b s1 with
      | Except.error e => Except.error e
      | Except.ok u2 =>
          Except.ok (applyUpdate s1 u2,
            [GraphNode.supervisor, GraphNode.roleNode r],
            (u2.messages.getD []).getLast?)

/-- The outcome the turn API reports to the caller (spec section 6):
the appended assistant message, session end, or a turn error. -/
inductive TurnOutcome where
  | appendedAssistant (m : Message)
  | ended
  | failed (e : TurnError)
deriving DecidableEq, Repr

/-- The turn entry point `submitUserMessage` (spec section 6), as the
chat loop of src/app.py drives it: append the new user message to the
conversation, run the compiled graph once, and on success append exactly
the assistant reply the builder produced (app.py reads the last message
of the builder node update). On failure the state stays as it was right
after the user message was appended. -/
def submitUserMessage (b : Backend) (s : AgentState) (text : String) :
    AgentState × TurnOutcome :=
  let s0 : AgentState := { s with messages := s.messages ++ [Message.user text] }
  match runTurn b s0 with
  | Except.error e => (s0, TurnOutcome.failed e)
  | Except.ok (s1, _, none) => (s1, TurnOutcome.ended)
  | Except.ok (s1, _, some m) => (s1, TurnOutcome.appendedAssistant m)

/-! ### Helper lemmas about the latest-user-message scan -/

/-- Scanning past a block with no User message reaches the tail. -/
lemma lastUserLoop_append_of_no_user (l rest : List Message)
    (h : ∀ m ∈ l, m.isUser = false) :
    lastUserLoop (l ++ rest) = lastUserLoop rest := by
  induction l with
  | nil => rfl
  | cons m l ih =>
    cases m with
    | user c =>
        have := h (Message.user c) (List.mem_cons_self _ _)
        simp [Message.isUser] at this
    | assistant c =>
        simp only [List.cons_append, lastUserLoop]
        exact ih fun m hm => h m (List.mem_cons_of_mem _ hm)

/-- A scan over a list with no User message returns the empty string. -/
lemma lastUserLoop_eq_empty_of_no_user (l : List Message)
    (h : ∀ m ∈ l, m.isUser = false) :
    lastUserLoop l = "" := by
  have := lastUserLoop_append_of_no_user l [] h
  simpa using this

/-- The latest-user extraction at the last User message of the list:
whatever follows it contains no User message. -/
lemma get_current_user_message_eq (l1 l2 : List Message) (c : String)
    (h : ∀ m ∈ l2, m.isUser = false) :
    get_current_user_message (l1 ++ Message.user c :: l2) = c := by
  unfold get_current_user_message
  have hrev : (l1 ++ Message.user c :: l2).reverse
      = l2.reverse ++ Message.user c :: l1.reverse := by
    simp
  rw [hrev]
  rw [lastUserLoop_append_of_no_user l2.reverse _
    (fun m hm => h m (List.mem_reverse.mp hm))]
  rfl

/-- With no User message at all, the extraction returns the empty string. -/
lemma get_current_user_message_eq_empty (l : List Message)
    (h : ∀ m ∈ l, m.isUser = false) :
    get_current_user_message l = "" := by
  unfold get_current_user_message
  exact lastUserLoop_eq_empty_of_no_user _
    (fun m hm => h m (List.mem_reverse.mp hm))

/-- Appending a fresh user message makes it the current request. -/
lemma get_current_user_message_append_user (l : List Message) (t : String) :
    get_current_user_message (l ++ [Message.user t]) = t := by
  simpa using get_current_user_message_eq l [] t (by simp)

/-! ### Sample deterministic backends and states, used by the witnesses -/

/-- A deterministic stub backend that always routes to the Profile
Analyzer and always generates successfully. -/
def stubBackend : Backend :=
  { routeRaw := fun _ _ => "Profile Analyzer",
    generate := fun _ _ _ => some "ok" }

/-- A deterministic stub backend that always routes to END. -/
def endBackend : Backend :=
  { routeRaw := fun _ _ => "__end__",
    generate := fun _ _ _ => some "ok" }

/-- A deterministic stub backend whose generation call always fails. -/
def failingBackend : Backend :=
  { routeRaw := fun _ _ => "Profile Analyzer",
    generate := fun _ _ _ => none }

/-- A sample state: one user message. -/
def sampleState1 : AgentState :=
  { messages := [Message.user "hi"], profile_data := "p", next := NextAgent.endConv }

/-- A sample state with a longer history whose latest user message has
the same content as in `sampleState1`. -/
def sampleState2 : AgentState :=
  { messages := [Message.user "old", Message.assistant "a",
                 Message.user "hi", Message.assistant "b"],
    profile_data := "q", next := NextAgent.profileAnalyzer }

/-! ### Reduction lemmas for the graph nodes and the compiled turn -/

/-- The edge target each decision value reaches through the
conditional-edge dictionary of graph.py. -/
def routedTarget : NextAgent → EdgeTarget
  | NextAgent.endConv => EdgeTarget.toEnd
  | d => EdgeTarget.toRole d

lemma supervisorEdgeMap_lookup_toStr (d : NextAgent) :
    supervisorEdgeMap.lookup d.toStr = some (routedTarget d) := by
  cases d <;> decide

lemma routedTarget_of_ne (d : NextAgent) (h : d ≠ NextAgent.endConv) :
    routedTarget d = EdgeTarget.toRole d := by
  cases d <;> simp_all [routedTarget]

lemma supervisorNode_ok (b : Backend) (s : AgentState) (d : NextAgent)
    (h : generateStructured b (get_current_user_message s.messages) = Except.ok d) :
    supervisorNode b s
      = Except.ok { messages := none, profile_data := none, next := some d } := by
  simp [supervisorNode, h]

lemma supervisorNode_err (b : Backend) (s : AgentState) (e : TurnError)
    (h : generateStructured b (get_current_user_message s.messages) = Except.error e) :
    supervisorNode b s = Except.error e := by
  simp [supervisorNode, h]

lemma agent_wrapper_ok (r : NextAgent) (b : Backend) (s : AgentState) (txt : String)
    (h : b.generate r s.profile_data (get_current_user_message s.messages) = some txt) :
    agent_wrapper r b s
      = Except.ok { messages := some [Message.assistant txt],
                    profile_data := none, next := none } := by
  simp [agent_wrapper, h]

lemma agent_wrapper_err (r : NextAgent) (b : Backend) (s : AgentState)
    (h : b.generate r s.profile_data (get_current_user_message s.messages) = none) :
    agent_wrapper r b s = Except.error TurnError.generationFailure := by
  simp [agent_wrapper, h]

lemma runTurn_of_route_err (b : Backend) (s : AgentState) (e : TurnError)
    (h : generateStructured b (get_current_user_message s.messages) = Except.error e) :
    runTurn b s = Except.error e := by
  simp [runTurn, supervisorNode_err b s e h]

lemma runTurn_of_end (b : Backend) (s : AgentState)
    (h : generateStructured b (get_current_user_message s.messages)
        = Except.ok NextAgent.endConv) :
    runTurn b s
      = Except.ok ({ s with next := NextAgent.endConv }, [GraphNode.supervisor], none) := by
  simp [runTurn, supervisorNode_ok b s _ h, applyUpdate,
    supervisorEdgeMap_lookup_toStr, routedTarget]

lemma runTurn_of_role_ok (b : Backend) (s : AgentState) (d : NextAgent) (txt : String)
    (hd : generateStructured b (get_current_user_message s.messages) = Except.ok d)
    (hne : d ≠ NextAgent.endConv)
    (hgen : b.generate d s.profile_data (get_current_user_message s.messages) = some txt) :
    runTurn b s
      = Except.ok ({ s with
            next := d,
            messages := s.messages ++ [Message.assistant txt] },
          [GraphNode.supervisor, GraphNode.roleNode d],
          some (Message.assistant txt)) := by
  have haw := agent_wrapper_ok d b
    { messages := s.messages, profile_data := s.profile_data, next := d } txt hgen
  simp [runTurn, supervisorNode_ok b s _ hd, applyUpdate,
    supervisorEdgeMap_lookup_toStr, routedTarget_of_ne d hne, haw]

lemma runTurn_of_role_err (b : Backend) (s : AgentState) (d : NextAgent)
    (hd : generateStructured b (get_current_user_message s.messages) = Except.ok d)
    (hne : d ≠ NextAgent.endConv)
    (hgen : b.generate d s.profile_data (get_current_user_message s.messages) = none) :
    runTurn b s = Except.error TurnError.generationFailure := by
  have haw := agent_wrapper_err d b
    { messages := s.messages, profile_data := s.profile_data, next := d } hgen
  simp [runTurn, supervisorNode_ok b s _ hd, applyUpdate,
    supervisorEdgeMap_lookup_toStr, routedTarget_of_ne d hne, haw]

lemma runTurn_profile_data (b : Backend) (s s' : AgentState)
    (tr : List GraphNode) (om : Option Message)
    (h : runTurn b s = Except.ok (s', tr, om)) :
    s'.profile_data = s.profile_data := by
  cases hg : generateStructured b (get_current_user_message s.messages) with
  | error e =>
      rw [runTurn_of_route_err b s e hg] at h
      exact absurd h (by simp)
  | ok d =>
      by_cases hne : d = NextAgent.endConv
      · subst hne
        rw [runTurn_of_end b s hg] at h
        simp at h
        obtain ⟨h1, -, -⟩ := h
        rw [← h1]
      · cases hgen : b.generate d s.profile_data (get_current_user_message s.messages) with
        | none =>
            rw [runTurn_of_role_err b s d hg hne hgen] at h
            exact absurd h (by simp)
        | some txt =>
            rw [runTurn_of_role_ok b s d txt hg hne hgen] at h
            simp at h
            obtain ⟨h1, -, -⟩ := h
            rw [← h1]

/-! ### Claim theorems -/

/-- C10: for every message list, `get_current_user_message` returns the
content of the HumanMessage with the greatest index, skipping any
Assistant messages after it and tolerating consecutive same-role
entries, and returns the empty string when the list has no HumanMessage
at all. -/
theorem getCurrentUserMessage_latest_or_empty :
    (∀ (l1 l2 : List Message) (c : String),
        (∀ m ∈ l2, m.isUser = false) →
        get_current_user_message (l1 ++ Message.user c :: l2) = c)
    ∧ (∀ l : List Message, (∀ m ∈ l, m.isUser = false) →
        get_current_user_message l = "") :=
  ⟨get_current_user_message_eq, get_current_user_message_eq_empty⟩

/-- Witness for C10 at a concrete history with consecutive same-role
entries and trailing assistant messages, and at a history with no user
message. -/
theorem getCurrentUserMessage_latest_or_empty_witness :
    get_current_user_message
      [Message.user "a", Message.user "b", Message.assistant "x",
       Message.assistant "y"] = "b"
    ∧ get_current_user_message [Message.assistant "x"] = "" :=
  ⟨getCurrentUserMessage_latest_or_empty.1 [Message.user "a"]
      [Message.assistant "x", Message.assistant "y"] "b" (by decide),
   getCurrentUserMessage_latest_or_empty.2 [Message.assistant "x"] (by decide)⟩

/-- C1: the routing decision depends only on the content of the latest
user message: two conversation states with the same latest user message
content produce, under the same deterministic backend, the same
supervisor result, whatever the rest of the history. -/
theorem supervisor_depends_only_on_latest_user_message
    (b : Backend) (s1 s2 : AgentState)
    (h : get_current_user_message s1.messages = get_current_user_message s2.messages) :
    supervisorNode b s1 = supervisorNode b s2 := by
  unfold supervisorNode
  rw [h]

/-- Witness for C1: two states whose histories differ everywhere except
the latest user content route identically. -/
theorem supervisor_depends_only_on_latest_user_message_witness :
    supervisorNode stubBackend sampleState1 = supervisorNode stubBackend sampleState2 :=
  supervisor_depends_only_on_latest_user_message stubBackend sampleState1 sampleState2 rfl

/-- C7: the conditional edge dictionary of graph.py is exhaustive over
the closed five-value enumeration and unambiguous: every routing
decision matches exactly one entry, and the dictionary has exactly the
five entries, so no catch-all exists and no decision selects zero or
several edges. -/
theorem edge_map_exhaustive_and_unambiguous :
    ∀ d : NextAgent,
      (List.filter (fun p => p.1 == d.toStr) supervisorEdgeMap).length = 1
      ∧ supervisorEdgeMap.length = 5 := by
  intro d
  cases d <;> exact ⟨by decide, by decide⟩

/-- C6: the constrained structured-output call either returns a value of
the enumeration parsed from the first attempt, or rejects a malformed
first attempt and returns a value parsed from the single retry, or, when
both attempts are malformed, surfaces a RoutingFailure — never a value
outside the enumeration. -/
theorem router_malformed_output_retry_contract (b : Backend) (req : String) :
    (∃ a, parseNextAgent (b.routeRaw req 0) = some a
        ∧ generateStructured b req = Except.ok a)
    ∨ (parseNextAgent (b.routeRaw req 0) = none
        ∧ ∃ a, parseNextAgent (b.routeRaw req 1) = some a
        ∧ generateStructured b req = Except.ok a)
    ∨ (parseNextAgent (b.routeRaw req 0) = none
        ∧ parseNextAgent (b.routeRaw req 1) = none
        ∧ generateStructured b req = Except.error TurnError.routingFailure) := by
  cases h0 : parseNextAgent (b.routeRaw req 0) with
  | some a => exact Or.inl ⟨a, rfl, by simp [generateStructured, h0]⟩
  | none =>
    cases h1 : parseNextAgent (b.routeRaw req 1) with
    | some a => exact Or.inr (Or.inl ⟨rfl, a, rfl, by simp [generateStructured, h0, h1]⟩)
    | none => exact Or.inr (Or.inr ⟨rfl, rfl, by simp [generateStructured, h0, h1]⟩)

/-- C5: with an empty or absent user message the router is still
invoked: the extraction yields the empty string instead of raising, the
supervisor call goes through, and with a backend that falls back to the
documented default classification on empty input it returns End. -/
theorem empty_or_absent_user_message_routes_to_end
    (b : Backend) (s : AgentState)
    (hb : b.routeRaw "" 0 = "__end__")
    (hs : (∀ m ∈ s.messages, m.isUser = false)
        ∨ get_current_user_message s.messages = "") :
    supervisorNode b s
      = Except.ok { messages := none, profile_data := none,
                    next := some NextAgent.endConv } := by
  have hempty : get_current_user_message s.messages = "" := by
    rcases hs with h | h
    · exact get_current_user_message_eq_empty _ h
    · exact h
  have hp : parseNextAgent "__end__" = some NextAgent.endConv := by decide
  apply supervisorNode_ok
  rw [hempty]
  simp [generateStructured, hb, hp]

/-- Witness for C5: a session with no user message at all still routes,
to End, under a backend defaulting to the End classification. -/
theorem empty_or_absent_user_message_routes_to_end_witness :
    supervisorNode endBackend
      { messages := [], profile_data := "p", next := NextAgent.profileAnalyzer }
      = Except.ok { messages := none, profile_data := none,
                    next := some NextAgent.endConv } :=
  empty_or_absent_user_message_routes_to_end endBackend
    { messages := [], profile_data := "p", next := NextAgent.profileAnalyzer }
    rfl (Or.inl (by decide))

/-- C4: when the routing decision is End, the turn stops at the
conditional edge to END: the trace holds the supervisor only, no builder
node runs, no assistant message is produced, the messages stay as they
were, and at the turn API level the session reports the Ended outcome. -/
theorem end_decision_emits_no_assistant_message
    (b : Backend) (s : AgentState)
    (hd : generateStructured b (get_current_user_message s.messages)
        = Except.ok NextAgent.endConv) :
    runTurn b s
      = Except.ok ({ s with next := NextAgent.endConv }, [GraphNode.supervisor], none)
    ∧ ∀ (sa : AgentState) (text : String),
        generateStructured b text = Except.ok NextAgent.endConv →
        (submitUserMessage b sa text).2 = TurnOutcome.ended := by
  refine ⟨runTurn_of_end b s hd, ?_⟩
  intro sa text ht
  have hcur : get_current_user_message (sa.messages ++ [Message.user text]) = text :=
    get_current_user_message_append_user _ _
  have ht' : generateStructured b
      (get_current_user_message (sa.messages ++ [Message.user text]))
      = Except.ok NextAgent.endConv := by
    rw [hcur]; exact ht
  have hrt := runTurn_of_end b
    { sa with messages := sa.messages ++ [Message.user text] } ht'
  simp [submitUserMessage, hrt]

/-- Witness for C4 at a deterministic End-routing backend. -/
theorem end_decision_emits_no_assistant_message_witness :
    runTurn endBackend sampleState1
      = Except.ok ({ sampleState1 with next := NextAgent.endConv },
          [GraphNode.supervisor], none)
    ∧ (submitUserMessage endBackend sampleState1 "bye").2 = TurnOutcome.ended :=
  ⟨(end_decision_emits_no_assistant_message endBackend sampleState1 rfl).1,
   (end_decision_emits_no_assistant_message endBackend sampleState1 rfl).2
      sampleState1 "bye" rfl⟩

/-- C8: a successful turn executes the supervisor exactly once and then
at most one role builder: its trace is either the supervisor alone or
the supervisor followed by a single builder node, never two builders,
never the supervisor twice, and never a builder before the supervisor. -/
theorem turn_runs_router_once_then_at_most_one_builder
    (b : Backend) (s sf : AgentState) (tr : List GraphNode) (om : Option Message)
    (h : runTurn b s = Except.ok (sf, tr, om)) :
    tr = [GraphNode.supervisor]
    ∨ ∃ r : NextAgent, r ≠ NextAgent.endConv
        ∧ tr = [GraphNode.supervisor, GraphNode.roleNode r] := by
  cases hg : generateStructured b (get_current_user_message s.messages) with
  | error e =>
      rw [runTurn_of_route_err b s e hg] at h
      exact absurd h (by simp)
  | ok d =>
      by_cases hne : d = NextAgent.endConv
      · subst hne
        rw [runTurn_of_end b s hg] at h
        injection h with h'
        injection h' with h1 h2
        injection h2 with h3 h4
        exact Or.inl h3.symm
      · cases hgen : b.generate d s.profile_data (get_current_user_message s.messages) with
        | none =>
            rw [runTurn_of_role_err b s d hg hne hgen] at h
            exact absurd h (by simp)
        | some txt =>
            rw [runTurn_of_role_ok b s d txt hg hne hgen] at h
            injection h with h'
            injection h' with h1 h2
            injection h2 with h3 h4
            exact Or.inr ⟨d, hne, h3.symm⟩

/-- Witness for C8 at a deterministic builder-routing backend. -/
theorem turn_runs_router_once_then_at_most_one_builder_witness :
    [GraphNode.supervisor, GraphNode.roleNode NextAgent.profileAnalyzer]
      = [GraphNode.supervisor]
    ∨ ∃ r : NextAgent, r ≠ NextAgent.endConv
        ∧ [GraphNode.supervisor, GraphNode.roleNode NextAgent.profileAnalyzer]
          = [GraphNode.supervisor, GraphNode.roleNode r] :=
  turn_runs_router_once_then_at_most_one_builder stubBackend sampleState1
    { messages := [Message.user "hi", Message.assistant "ok"],
      profile_data := "p", next := NextAgent.profileAnalyzer }
    [GraphNode.supervisor, GraphNode.roleNode NextAgent.profileAnalyzer]
    (some (Message.assistant "ok")) rfl

/-- C2: the message sequence is append-only within a turn: a successful
builder turn leaves the prior sequence intact, in order, and appends the
new user message followed by exactly the assistant message generated by
the builder the router selected. -/
theorem successful_turn_appends_builder_reply
    (b : Backend) (s : AgentState) (text : String) (sf : AgentState) (m : Message)
    (h : submitUserMessage b s text = (sf, TurnOutcome.appendedAssistant m)) :
    sf.messages = s.messages ++ [Message.user text, m]
    ∧ ∃ (d : NextAgent) (txt : String),
        generateStructured b text = Except.ok d
        ∧ supervisorEdgeMap.lookup d.toStr = some (EdgeTarget.toRole d)
        ∧ b.generate d s.profile_data text = some txt
        ∧ m = Message.assistant txt := by
  have hcur : get_current_user_message (s.messages ++ [Message.user text]) = text :=
    get_current_user_message_append_user _ _
  simp only [submitUserMessage] at h
  cases hg : generateStructured b text with
  | error e =>
      have hg' : generateStructured b
          (get_current_user_message (s.messages ++ [Message.user text]))
          = Except.error e := by rw [hcur]; exact hg
      rw [runTurn_of_route_err b
        { s with messages := s.messages ++ [Message.user text] } e hg'] at h
      simp at h
  | ok d =>
      have hg' : generateStructured b
          (get_current_user_message (s.messages ++ [Message.user text]))
          = Except.ok d := by rw [hcur]; exact hg
      by_cases hne : d = NextAgent.endConv
      · subst hne
        rw [runTurn_of_end b
          { s with messages := s.messages ++ [Message.user text] } hg'] at h
        simp at h
      · cases hgen : b.generate d s.profile_data text with
        | none =>
            have hgen' : b.generate d s.profile_data
                (get_current_user_message (s.messages ++ [Message.user text]))
                = none := by rw [hcur]; exact hgen
            rw [runTurn_of_role_err b
              { s with messages := s.messages ++ [Message.user text] } d hg' hne hgen'] at h
            simp at h
        | some txt =>
            have hgen' : b.generate d s.profile_data
                (get_current_user_message (s.messages ++ [Message.user text]))
                = some txt := by rw [hcur]; exact hgen
            rw [runTurn_of_role_ok b
              { s with messages := s.messages ++ [Message.user text] } d txt hg' hne hgen'] at h
            simp at h
            obtain ⟨h1, h2⟩ := h
            constructor
            · rw [← h1, ← h2]
            · exact ⟨d, txt, rfl,
                by rw [supervisorEdgeMap_lookup_toStr, routedTarget_of_ne d hne],
                hgen, h2.symm⟩

/-- Witness for C2: a concrete successful turn appends the new user
message and the builder reply, in order, and nothing else. -/
theorem successful_turn_appends_builder_reply_witness :
    ({ messages := [Message.user "hi", Message.user "hello", Message.assistant "ok"],
       profile_data := "p", next := NextAgent.profileAnalyzer } : AgentState).messages
      = sampleState1.messages ++ [Message.user "hello", Message.assistant "ok"]
    ∧ ∃ (d : NextAgent) (txt : String),
        generateStructured stubBackend "hello" = Except.ok d
        ∧ supervisorEdgeMap.lookup d.toStr = some (EdgeTarget.toRole d)
        ∧ stubBackend.generate d sampleState1.profile_data "hello" = some txt
        ∧ Message.assistant "ok" = Message.assistant txt :=
  successful_turn_appends_builder_reply stubBackend sampleState1 "hello"
    { messages := [Message.user "hi", Message.user "hello", Message.assistant "ok"],
      profile_data := "p", next := NextAgent.profileAnalyzer }
    (Message.assistant "ok") rfl

/-- C3: when the selected builder's generation call fails, no assistant
message is appended: the turn result keeps exactly the sequence obtained
right after the triggering user message was appended, and the caller
receives a GenerationFailure. -/
theorem generation_failure_appends_nothing
    (b : Backend) (s : AgentState) (text : String) (d : NextAgent)
    (hd : generateStructured b text = Except.ok d)
    (hne : d ≠ NextAgent.endConv)
    (hgen : b.generate d s.profile_data text = none) :
    submitUserMessage b s text
      = ({ s with messages := s.messages ++ [Message.user text] },
         TurnOutcome.failed TurnError.generationFailure) := by
  have hcur : get_current_user_message (s.messages ++ [Message.user text]) = text :=
    get_current_user_message_append_user _ _
  have hd' : generateStructured b
      (get_current_user_message (s.messages ++ [Message.user text]))
      = Except.ok d := by rw [hcur]; exact hd
  have hgen' : b.generate d s.profile_data
      (get_current_user_message (s.messages ++ [Message.user text]))
      = none := by rw [hcur]; exact hgen
  have hrt := runTurn_of_role_err b
    { s with messages := s.messages ++ [Message.user text] } d hd' hne hgen'
  simp [submitUserMessage, hrt]

/-- Witness for C3: a backend whose generation always fails leaves only
the new user message recorded and surfaces a GenerationFailure. -/
theorem generation_failure_appends_nothing_witness :
    submitUserMessage failingBackend sampleState1 "hello"
      = ({ sampleState1 with
            messages := sampleState1.messages ++ [Message.user "hello"] },
         TurnOutcome.failed TurnError.generationFailure) :=
  generation_failure_appends_nothing failingBackend sampleState1 "hello"
    NextAgent.profileAnalyzer rfl (by decide) rfl

/-- C9: the profile summary is read-only: the supervisor update carries
only the `next` key, a builder update carries only the `messages` key,
and a whole turn leaves the `profile_data` field of the state
untouched. -/
theorem profile_data_read_only
    (b : Backend) (s : AgentState) (text : String) :
    (∀ u, supervisorNode b s = Except.ok u → u.profile_data = none ∧ u.messages = none)
    ∧ (∀ r u, agent_wrapper r b s = Except.ok u → u.profile_data = none ∧ u.next = none)
    ∧ (submitUserMessage b s text).1.profile_data = s.profile_data := by
  refine ⟨?_, ?_, ?_⟩
  · intro u hu
    cases hg : generateStructured b (get_current_user_message s.messages) with
    | error e =>
        rw [supervisorNode_err b s e hg] at hu
        exact absurd hu (by simp)
    | ok d =>
        rw [supervisorNode_ok b s d hg] at hu
        injection hu with hu'
        rw [← hu']
        exact ⟨rfl, rfl⟩
  · intro r u hu
    cases hgen : b.generate r s.profile_data (get_current_user_message s.messages) with
    | none =>
        rw [agent_wrapper_err r b s hgen] at hu
        exact absurd hu (by simp)
    | some txt =>
        rw [agent_wrapper_ok r b s txt hgen] at hu
        injection hu with hu'
        rw [← hu']
        exact ⟨rfl, rfl⟩
  · cases hrt : runTurn b { s with messages := s.messages ++ [Message.user text] } with
    | error e => simp [submitUserMessage, hrt]
    | ok p =>
        obtain ⟨s1, tr, om⟩ := p
        have hpd : s1.profile_data
            = ({ s with messages := s.messages ++ [Message.user text] } :
                AgentState).profile_data :=
          runTurn_profile_data b _ s1 tr om hrt
        cases om with
        | none =>
            simp [submitUserMessage, hrt]
            exact hpd
        | some m =>
            simp [submitUserMessage, hrt]
            exact hpd

/-- Witness for C9 at a concrete backend and state: the supervisor
update has no messages or profile key, and the turn preserves the
profile summary. -/
theorem profile_data_read_only_witness :
    ((StateUpdate.mk none none (some NextAgent.profileAnalyzer)).profile_data = none
      ∧ (StateUpdate.mk none none (some NextAgent.profileAnalyzer)).messages = none)
    ∧ (submitUserMessage stubBackend sampleState1 "hi").1.profile_data
        = sampleState1.profile_data :=
  ⟨(profile_data_read_only stubBackend sampleState1 "hi").1
      (StateUpdate.mk none none (some NextAgent.profileAnalyzer)) rfl,
   (profile_data_read_only stubBackend sampleState1 "hi").2.2⟩
